import Mathlib

/-!
Shallow embedding of the Dataset Synchronization Engine of
`cfc_app/management/commands/get_api_data.py` (fix-politics repository).

Dates and times are embedded as minutes on a proleptic Gregorian time line
(`Int`), mirroring Python `datetime` comparisons and `timedelta` arithmetic.
The blob store (`FOB_Storage`), the Legiscan API client and the `Hash`
Django model are collaborators whose code is not part of the staged source;
the definitions that stand for them carry a `Modelled from the spec:`
doc comment and follow the spec's contracts for them.  Everything else is
translated line by line from `get_api_data.py`.
-/

namespace GetApiData

/-! ## Calendar arithmetic (embedding of Python `datetime`) -/

/-- Gregorian leap-year test. -/
def isLeap (y : Nat) : Bool :=
  y % 4 == 0 && (y % 100 != 0 || y % 400 == 0)

/-- Days in the months before month `m` of a non-leap year (`m` is 1-based). -/
def monthOffset (m : Nat) : Nat :=
  [0, 31, 59, 90, 120, 151, 181, 212, 243, 273, 304, 334].getD (m - 1) 0

/-- Day number of year `y`, month `m`, day `d` on a proleptic Gregorian
time line (day 1 is 0001-01-01). -/
def dateToDays (y m d : Nat) : Nat :=
  let yp := y - 1
  365 * yp + yp / 4 - yp / 100 + yp / 400
    + monthOffset m + (if 2 < m ∧ isLeap y then 1 else 0) + d

/-- A `datetime` value as minutes on the Gregorian time line. -/
def dtMinutes (y m d hh mi : Nat) : Int :=
  (dateToDays y m d : Int) * 1440 + hh * 60 + mi

/-- A Python `datetime` (to minute precision; the command compares nothing
finer than minutes). -/
structure DateTime where
  year : Nat
  month : Nat
  day : Nat
  hour : Nat
  minute : Nat
deriving DecidableEq

def DateTime.minutes (t : DateTime) : Int :=
  dtMinutes t.year t.month t.day t.hour t.minute

/-- Zero-padded decimal rendering, width `w`. -/
def pad (w n : Nat) : String :=
  let s := toString n
  String.mk (List.replicate (w - s.length) '0') ++ s

/-- `strftime "%Y-%m-%d"`. -/
def DateTime.ymd (t : DateTime) : String :=
  pad 4 t.year ++ "-" ++ pad 2 t.month ++ "-" ++ pad 2 t.day

/-- Decimal value of a non-empty all-digit character sequence (Python
`int`), `none` otherwise. -/
def parseNatAux : List Char → Nat → Option Nat
  | [], acc => some acc
  | c :: cs, acc =>
    if c.isDigit then parseNatAux cs (acc * 10 + (c.toNat - 48)) else none

def parseNatChars : List Char → Option Nat
  | [] => none
  | cs => parseNatAux cs 0

/-- Split a character sequence at every dash. -/
def splitOnDashAux : List Char → List Char → List (List Char)
  | [], acc => [acc.reverse]
  | c :: cs, acc =>
    if c = '-' then acc.reverse :: splitOnDashAux cs [] else splitOnDashAux cs (c :: acc)

def splitOnDash (cs : List Char) : List (List Char) := splitOnDashAux cs []

/-- `datetime.strptime s "%Y-%m-%d"` as minutes (midnight).  Month and day
ranges are checked as `strptime` does; day-of-month overflow past the month
length is not modelled (no claim touches it). -/
def strptimeYMD (s : String) : Option Int :=
  match splitOnDash s.data with
  | [ys, ms, ds] =>
    match parseNatChars ys, parseNatChars ms, parseNatChars ds with
    | some y, some m, some d =>
      if 1 ≤ m ∧ m ≤ 12 ∧ 1 ≤ d ∧ d ≤ 31 then some (dtMinutes y m d 0 0) else none
    | _, _, _ => none
  | _ => none

/-! ## Manifest data (the parsed `DatasetList` JSON) -/

/-- One entry of the manifest's `datasetlist` collection, with the fields
`get_api_data.py` reads. -/
structure MEntry where
  state_id : Int
  session_id : Int
  access_key : String
  year_start : Int
  year_end : Int
  dataset_date : String
  dataset_hash : String
  dataset_size : Int
  session_name : String
deriving DecidableEq

/-- The parsed manifest package (`json.loads` of the manifest text): the two
fields the command inspects, each possibly absent.  Manifest text that does
not parse as JSON is outside every claim and is not modelled. -/
structure ListPkg where
  status : Option String
  datasetlist : Option (List MEntry)
deriving DecidableEq

/-! ## Blob store (`FOB_Storage`) -/

/-- Content of a stored blob: a manifest package (pre-parsed, standing for
its JSON text) or a raw dataset payload. -/
inductive Blob where
  | pkg (p : ListPkg)
  | text (s : String)
deriving DecidableEq

/-- Modelled from the spec: the Blob Store collaborator (`FOB_Storage`),
keys mapped to content, supporting upload, download and key listing. -/
structure FOB where
  blobs : List (String × Blob)
deriving DecidableEq

def FOB.keys (f : FOB) : List String := f.blobs.map Prod.fst

/-- Modelled from the spec: `upload(key, content)`; last write wins. -/
def FOB.upload_text (f : FOB) (content : Blob) (name : String) : FOB :=
  ⟨(name, content) :: f.blobs.filter (fun kv => kv.1 != name)⟩

/-- Modelled from the spec: `download(key)`, `none` when absent. -/
def FOB.download_text (f : FOB) (name : String) : Option Blob :=
  (f.blobs.find? (fun kv => kv.1 == name)).map Prod.snd

/-- Download of a manifest blob: the parsed package, `none` when the key is
absent or the content is not manifest text (Python truthiness of an empty
download is also `none`). -/
def FOB.downloadPkg (f : FOB) (name : String) : Option ListPkg :=
  match f.download_text name with
  | some (Blob.pkg p) => some p
  | _ => none

/-- Modelled from the spec: `listKeys` restricted to manifest keys
(`DatasetList...`). -/
def FOB.DatasetList_items (f : FOB) : List String :=
  f.keys.filter (fun k => "DatasetList".data.isPrefixOf k.data)

/-- Modelled from the spec: `FOB_Storage.gen_DatasetList_name`, the manifest
key naming convention `DatasetList-YYYY-MM-DD.json`. -/
def gen_DatasetList_name (today : String) : String :=
  "DatasetList-" ++ today ++ ".json"

/-- Modelled from the spec: `FOB_Storage.DatasetList_search` (the `DSLregex`
match): for a key of the form `DatasetList-dddd-dd-dd.json` the embedded
date text (the regex group), otherwise `none`. -/
def DSL_search (name : String) : Option String :=
  let cs := name.data
  if "DatasetList-".data.isPrefixOf cs ∧ ".json".data.isSuffixOf cs then
    let rest := cs.drop 12
    let mid := rest.take (rest.length - 5)
    match splitOnDash mid with
    | [ys, ms, ds] =>
      if ys.length == 4 && ms.length == 2 && ds.length == 2
          && ys.all Char.isDigit && ms.all Char.isDigit && ds.all Char.isDigit then
        some (String.mk mid)
      else none
    | _ => none
  else none

/-- Modelled from the spec: `FOB_Storage.Dataset_name`, the dataset key
naming convention built from a region code and a numeric identifier,
`<code>-<number>.json`. -/
def Dataset_name (state : String) (num : Int) : String :=
  state ++ "-" ++ toString num ++ ".json"

/-- Modelled from the spec: `FOB_Storage.Dataset_items state`, the Blob
Store listing of dataset keys for one region. -/
def FOB.Dataset_items (f : FOB) (state : String) : List String :=
  f.keys.filter (fun k => (state ++ "-").data.isPrefixOf k.data)

/-! ## Manifest cache resolution (`Command.recent_enough`, lines 114-169) -/

/-- `DT.datetime(1911, 6, 16, 16, 20)`, the source's "long ago in history"
initial value for `latest_date` (line 120). -/
def sentinelMinutes : Int := dtMinutes 1911 6 16 16 20

/-- The loop of lines 122-128: walk the listed keys, keeping the latest
parsed date and its key.  A key whose regex match carries a date `strptime`
rejects would raise in the source; such keys do not arise from generated
names and are skipped here (outside every claim). -/
def findLatestAux : List String → Int → Option String → Int × Option String
  | [], date, nm => (date, nm)
  | name :: rest, date, nm =>
    match DSL_search name with
    | some ds =>
      match strptimeYMD ds with
      | some filedate =>
        if date < filedate then findLatestAux rest filedate (some name)
        else findLatestAux rest date nm
      | none => findLatestAux rest date nm
    | none => findLatestAux rest date nm

/-- Lines 120-128: the latest cached manifest date and key, starting from
the sentinel and no key. -/
def findLatest (names : List String) : Int × Option String :=
  findLatestAux names sentinelMinutes none

/-- The `CommandError`s `recent_enough` raises. -/
inductive CmdError where
  | statusNotOK (name : Option String)
  | datasetlistMissing
  | apiFailureOrNotFound
deriving DecidableEq

/-- Lines 149-161: validation of the parsed package.  With a `status` field
present it must equal "OK" (else `CommandError`, naming `list_name`) and a
`datasetlist` field must exist (else `CommandError`); with no `status`
field the source performs no check and extracts nothing. -/
def validate (list_name : Option String) (pkg : ListPkg) :
    Except CmdError (Option (List MEntry)) :=
  match pkg.status with
  | some st =>
    if st != "OK" then Except.error (CmdError.statusNotOK list_name)
    else
      match pkg.datasetlist with
      | none => Except.error CmdError.datasetlistMissing
      | some dl => Except.ok (some dl)
  | none => Except.ok none

/-- The resolver state after the text-acquisition phase of `recent_enough`
(lines 114-147): `list_name`, `list_data`, the store (a fresh manifest may
have been uploaded) and how many remote manifest fetches were attempted. -/
structure ResolveOut where
  list_name : Option String
  list_data : Option ListPkg
  fob : FOB
  apiAttempts : Nat
deriving DecidableEq

/-- Lines 132-142: the `--api` branch.  The staleness test hardcodes
`week_ago = now - timedelta(days=7)` (line 117); `self.frequency` is never
read here.  On a successful remote fetch the text is adopted and uploaded
under today's generated name; on failure only the attempt is recorded.
`api_manifest` is what `LegiscanAPI.getDatasetList` would return (`none`
for a failed or empty response, matching Python falsiness). -/
def resolve_api_phase (fob : FOB) (latest : Int × Option String) (use_api : Bool)
    (api_manifest : Option ListPkg) (now : DateTime) : ResolveOut :=
  if use_api ∧ latest.1 < now.minutes - 7 * 1440 then
    match api_manifest with
    | some pkg =>
      ⟨some (gen_DatasetList_name now.ymd), some pkg,
        fob.upload_text (Blob.pkg pkg) (gen_DatasetList_name now.ymd), 1⟩
    | none => ⟨latest.2, none, fob, 1⟩
  else ⟨latest.2, none, fob, 0⟩

/-- Line 145: `if latest_name and (not self.list_data)`, the fallback
download of the cached manifest (`self.list_data =
self.fob.download_text(self.list_name)`). -/
def resolve_download (latest : Int × Option String) (afterApi : ResolveOut) : ResolveOut :=
  if latest.2.isSome ∧ afterApi.list_data = none then
    { afterApi with
      list_data :=
        match afterApi.list_name with
        | some nm => afterApi.fob.downloadPkg nm
        | none => none }
  else afterApi

/-- Lines 114-147 of `recent_enough`: select the latest cached manifest,
optionally refresh it remotely, and fall back to downloading the cached
copy when no text is held. -/
def resolve_text (fob : FOB) (use_api : Bool) (api_manifest : Option ListPkg)
    (now : DateTime) : ResolveOut :=
  resolve_download (findLatest fob.DatasetList_items)
    (resolve_api_phase fob (findLatest fob.DatasetList_items) use_api api_manifest now)

/-- The command state `recent_enough` leaves behind, plus `ret`, the value
its `return` statement hands back (line 169 is a bare `return`, so the
source always hands back `None`). -/
structure RSout where
  list_name : Option String
  list_data : Option ListPkg
  datasetlist : Option (List MEntry)
  fob : FOB
  apiAttempts : Nat
  ret : Option (List MEntry)
deriving DecidableEq

/-- Lines 149-169 applied to the acquisition-phase state `r`: validate the
held text (lines 149-161), raise when none is held (lines 163-167), and
return (`ret` models the bare `return` of line 169). -/
def recent_enough_of (r : ResolveOut) : Except CmdError RSout :=
  match r.list_data with
  | some pkg =>
    match validate r.list_name pkg with
    | Except.error e => Except.error e
    | Except.ok dl => Except.ok ⟨r.list_name, some pkg, dl, r.fob, r.apiAttempts, none⟩
  | none => Except.error CmdError.apiFailureOrNotFound

/-- `Command.recent_enough` (lines 114-169). -/
def recent_enough (fob : FOB) (use_api : Bool) (api_manifest : Option ListPkg)
    (now : DateTime) : Except CmdError RSout :=
  recent_enough_of (resolve_text fob use_api api_manifest now)

/-! ## Dataset fetch scheduler (`Command.fetch_dataset`, lines 171-184) -/

/-- Scheduler state threaded through a run: the blob store, the remaining
Legiscan fetch quota and the number of dataset fetch attempts so far.
Modelled from the spec: `LegiscanAPI.api_ok` is the quota client's
availability flag (`quotaAvailable()`), true exactly while quota remains,
and each dataset fetch spends one unit of quota. -/
structure FetchSt where
  fob : FOB
  quota : Nat
  fetchCount : Nat
deriving DecidableEq

/-- The body of the loop of lines 173-183 for one manifest entry.  The
payload oracle `gd` stands for `LegiscanAPI.getDataset(session_id,
access_key)`.  Line 177 of the source computes the upload key as
`Dataset_name(state, state_id)` - the region's numeric id, not the entry's
session id - and that is reproduced here. -/
def fetch_step (gd : Int → String → String) (use_api : Bool) (fromyear : Int)
    (state : String) (state_id : Int) (st : FetchSt) (entry : MEntry) : FetchSt :=
  if entry.state_id = state_id then
    let session_name := Dataset_name state state_id
    if fromyear ≤ entry.year_end then
      if use_api ∧ 0 < st.quota then
        ⟨st.fob.upload_text (Blob.text (gd entry.session_id entry.access_key)) session_name,
          st.quota - 1, st.fetchCount + 1⟩
      else st
    else st
  else st

/-- `Command.fetch_dataset` (lines 171-184): walk the manifest entries for
one region. -/
def fetch_dataset (gd : Int → String → String) (use_api : Bool) (fromyear : Int)
    (state : String) (state_id : Int) (entries : List MEntry) (st : FetchSt) : FetchSt :=
  entries.foldl (fetch_step gd use_api fromyear state state_id) st

/-- The per-region fetch loop of `Command.handle` (lines 95-108): every
location is visited; with `--state` set, regions whose code differs are
skipped (`continue`) before `fetch_dataset` runs. -/
def run_fetch_all (gd : Int → String → String) (use_api : Bool) (fromyear : Int)
    (entries : List MEntry) (sfilter : Option String) :
    List (String × Int) → FetchSt → FetchSt
  | [], st => st
  | (state, sid) :: rest, st =>
    let st' :=
      if sfilter = none ∨ sfilter = some state then
        fetch_dataset gd use_api fromyear state sid entries st
      else st
    run_fetch_all gd use_api fromyear entries sfilter rest st'

/-! ## Change-detection ledger (`Command.datasets_found`, lines 186-212) -/

/-- Modelled from the spec: one row of the `Hash` Django model as
`datasets_found` fills it (lines 203-210). -/
structure HashRec where
  item_name : String
  fob_method : String
  generated_date : String
  hashcode : String
  size : Int
  desc : String
deriving DecidableEq

/-- A line of the found/missing report (lines 197-201). -/
inductive ReportLine where
  | found (name : String)
  | notFound (name : String)
deriving DecidableEq

/-- Lines 203-210: the fresh `Hash()` row saved for one manifest entry. -/
def mkHash (fob_method : String) (session_name : String) (e : MEntry) : HashRec :=
  ⟨session_name, fob_method, e.dataset_date, e.dataset_hash, e.dataset_size, e.session_name⟩

/-- The selection test of lines 192-193: the entry belongs to the region
and meets the year filter. -/
def matchesEntry (state_id : Int) (fromyear : Int) (e : MEntry) : Bool :=
  e.state_id == state_id && decide (fromyear ≤ e.year_end)

/-- Lines 197-201: the report line for one selected entry, found or not
found according to membership of its key in the region's listing. -/
def reportOf (found_list : List String) (state : String) (e : MEntry) : ReportLine :=
  let session_name := Dataset_name state e.session_id
  if session_name ∈ found_list then ReportLine.found session_name
  else ReportLine.notFound session_name

/-- The entry loop of lines 191-210 for one region: each selected entry
contributes one report line and one freshly appended `Hash` row
(unconditionally, found or not). -/
def datasets_found_state (found_list : List String) (fob_method : String)
    (fromyear : Int) (state : String) (state_id : Int) :
    List MEntry → List ReportLine × List HashRec
  | [] => ([], [])
  | e :: rest =>
    let r := datasets_found_state found_list fob_method fromyear state state_id rest
    if matchesEntry state_id fromyear e then
      (reportOf found_list state e :: r.1,
        mkHash fob_method (Dataset_name state e.session_id) e :: r.2)
    else r

/-- `Command.datasets_found` (lines 186-212): the state loop; `found_list`
is the Blob Store listing for the region (line 190). -/
def datasets_found (fob : FOB) (fob_method : String) (fromyear : Int)
    (entries : List MEntry) : List (String × Int) → List ReportLine × List HashRec
  | [] => ([], [])
  | (state, sid) :: rest =>
    let r1 := datasets_found_state (fob.Dataset_items state) fob_method fromyear state sid entries
    let r2 := datasets_found fob fob_method fromyear entries rest
    (r1.1 ++ r2.1, r1.2 ++ r2.2)

/-! ## Concrete scenario inputs -/

/-- The manifest entry of Scenario C: `externalId` 5, `sessionId` 9001,
`yearEnd` 2019. -/
def entryC : MEntry :=
  ⟨5, 9001, "key5", 2018, 2019, "2020-01-01", "abcd1234", 100, "Session of 2019"⟩

/-- The empty blob store. -/
def emptyFOB : FOB := ⟨[]⟩

/-- A well-formed manifest package: status "OK" and a `datasetlist`
holding Scenario C's entry. -/
def pkgOK : ListPkg := ⟨some "OK", some [entryC]⟩

/-- A manifest package with no `status` field at all. -/
def pkgNoStatus : ListPkg := ⟨none, none⟩

/-- A blob store holding one cached manifest, `DatasetList-2024-01-01.json`,
with content `pkgOK`. -/
def fobCached : FOB := ⟨[("DatasetList-2024-01-01.json", Blob.pkg pkgOK)]⟩

/-- A blob store whose one cached manifest lacks the `status` field. -/
def fobNoStatus : FOB := ⟨[("DatasetList-2024-01-01.json", Blob.pkg pkgNoStatus)]⟩

/-- 2024-01-03 00:00, two days after the cached manifest (Scenario B). -/
def nowFresh : DateTime := ⟨2024, 1, 3, 0, 0⟩

/-- 2024-01-11 12:00, ten and a half days after the cached manifest. -/
def nowStale : DateTime := ⟨2024, 1, 11, 12, 0⟩

/-- The resolver state after a successful fresh run on `fobCached` with the
remote API disabled. -/
def outCached : RSout :=
  ⟨some "DatasetList-2024-01-01.json", some pkgOK, some [entryC], fobCached, 0, none⟩

/-- Scenario C's scheduler run: region code "XX" with external id 5, entry
`entryC`, `fromYear` 2018, remote fetching enabled, quota available. -/
def scenarioC : FetchSt :=
  fetch_dataset (fun _ _ => "payload") true 2018 "XX" 5 [entryC] ⟨emptyFOB, 10, 0⟩

/-- The round-trip run for C10: fetch for region "AZ" (external id 5), then
report over the store the fetch produced. -/
def scenarioAZ : FetchSt :=
  fetch_dataset (fun _ _ => "payload") true 2018 "AZ" 5 [entryC] ⟨emptyFOB, 10, 0⟩

/-! ## Helper lemmas -/

/-- With a failed or absent remote response the api phase leaves the store
and the selected name untouched and holds no text. -/
lemma resolve_api_phase_none (fob : FOB) (latest : Int × Option String)
    (u : Bool) (now : DateTime) :
    resolve_api_phase fob latest u none now
      = ⟨latest.2, none, fob,
          if u ∧ latest.1 < now.minutes - 7 * 1440 then 1 else 0⟩ := by
  unfold resolve_api_phase
  split <;> simp_all

/-- `fetch_step` preserves the sum of fetches made and quota left. -/
lemma fetch_step_sum (gd : Int → String → String) (u : Bool) (fy : Int)
    (s : String) (sid : Int) (st : FetchSt) (e : MEntry) :
    (fetch_step gd u fy s sid st e).fetchCount + (fetch_step gd u fy s sid st e).quota
      = st.fetchCount + st.quota := by
  unfold fetch_step
  split
  · split
    · split
      · next h =>
        show st.fetchCount + 1 + (st.quota - 1) = st.fetchCount + st.quota
        obtain ⟨-, hq⟩ := h
        omega
      · rfl
    · rfl
  · rfl

/-- `fetch_dataset` preserves the sum of fetches made and quota left. -/
lemma fetch_dataset_sum (gd : Int → String → String) (u : Bool) (fy : Int)
    (s : String) (sid : Int) :
    ∀ (entries : List MEntry) (st : FetchSt),
      (fetch_dataset gd u fy s sid entries st).fetchCount
          + (fetch_dataset gd u fy s sid entries st).quota
        = st.fetchCount + st.quota := by
  intro entries
  induction entries with
  | nil => intro st; rfl
  | cons e rest ih =>
    intro st
    have h1 := fetch_step_sum gd u fy s sid st e
    have h2 := ih (fetch_step gd u fy s sid st e)
    simp only [fetch_dataset, List.foldl_cons] at *
    omega

/-- The whole per-region fetch loop preserves the sum of fetches made and
quota left. -/
lemma run_fetch_all_sum (gd : Int → String → String) (u : Bool) (fy : Int)
    (entries : List MEntry) (sfilter : Option String) :
    ∀ (locs : List (String × Int)) (st : FetchSt),
      (run_fetch_all gd u fy entries sfilter locs st).fetchCount
          + (run_fetch_all gd u fy entries sfilter locs st).quota
        = st.fetchCount + st.quota := by
  intro locs
  induction locs with
  | nil => intro st; rfl
  | cons p rest ih =>
    intro st
    obtain ⟨state, sid⟩ := p
    simp only [run_fetch_all]
    split
    · have h1 := fetch_dataset_sum gd u fy state sid entries st
      have h2 := ih (fetch_dataset gd u fy state sid entries st)
      omega
    · exact ih st

/-- A non-failing validation pass leaves `ret` at `None` and `datasetlist`
at the collection extracted from the held package. -/
lemma recent_enough_of_ok (r : ResolveOut) (out : RSout)
    (h : recent_enough_of r = Except.ok out) :
    out.ret = none ∧
      out.datasetlist
        = (match out.list_data with
           | some pkg => if pkg.status = some "OK" then pkg.datasetlist else none
           | none => none) := by
  unfold recent_enough_of at h
  cases hd : r.list_data with
  | none => rw [hd] at h; exact absurd h (by simp)
  | some pkg =>
    rw [hd] at h
    have h' : (match validate r.list_name pkg with
        | Except.error e => Except.error e
        | Except.ok dl =>
          Except.ok (⟨r.list_name, some pkg, dl, r.fob, r.apiAttempts, none⟩ : RSout))
        = Except.ok out := h
    cases hv : validate r.list_name pkg with
    | error e => rw [hv] at h'; exact absurd h' (by simp)
    | ok dl =>
      rw [hv] at h'
      injection h' with h2
      subst h2
      refine ⟨rfl, ?_⟩
      unfold validate at hv
      cases hst : pkg.status with
      | none =>
        rw [hst] at hv
        have hv2 : (none : Option (List MEntry)) = dl := by injection hv
        simp [hst, hv2.symm]
      | some s =>
        rw [hst] at hv
        have hv' : (if (s != "OK") = true then
              (Except.error (CmdError.statusNotOK r.list_name) :
                Except CmdError (Option (List MEntry)))
            else
              match pkg.datasetlist with
              | none => Except.error CmdError.datasetlistMissing
              | some dl => Except.ok (some dl)) = Except.ok dl := hv
        by_cases hok : s = "OK"
        · subst hok
          rw [if_neg (by simp)] at hv'
          cases hdl : pkg.datasetlist with
          | none => rw [hdl] at hv'; exact absurd hv' (by simp)
          | some l =>
            rw [hdl] at hv'
            have hv2 : some l = dl := by injection hv'
            simp [hst, hdl, hv2.symm]
        · rw [if_pos (by simpa [bne_iff_ne] using hok)] at hv'
          exact absurd hv' (by simp)

/-- The region/entry loop of `datasets_found` produces exactly one report
line and one ledger row per entry passing the region and year filter. -/
lemma datasets_found_state_eq (fl : List String) (fm : String) (fy : Int)
    (s : String) (sid : Int) :
    ∀ entries : List MEntry,
      datasets_found_state fl fm fy s sid entries
        = ((entries.filter (matchesEntry sid fy)).map (reportOf fl s),
           (entries.filter (matchesEntry sid fy)).map
             (fun e => mkHash fm (Dataset_name s e.session_id) e)) := by
  intro entries
  induction entries with
  | nil => rfl
  | cons e rest ih =>
    simp only [datasets_found_state, ih]
    cases h : matchesEntry sid fy e <;> simp [List.filter_cons, h]

/-- A manifest entry failing the region or year filter leaves the
scheduler state untouched. -/
lemma fetch_step_skip (gd : Int → String → String) (u : Bool) (fy : Int)
    (s : String) (sid : Int) (st : FetchSt) (e : MEntry)
    (h : ¬(e.state_id = sid ∧ fy ≤ e.year_end)) :
    fetch_step gd u fy s sid st e = st := by
  by_cases h1 : e.state_id = sid
  · have h2 : ¬ fy ≤ e.year_end := fun hy => h ⟨h1, hy⟩
    simp [fetch_step, h1, h2]
  · simp [fetch_step, h1]

/-- With remote fetching disabled or quota spent, the scheduler state is
untouched (silent skip, no failure). -/
lemma fetch_step_no_api (gd : Int → String → String) (u : Bool) (fy : Int)
    (s : String) (sid : Int) (st : FetchSt) (e : MEntry)
    (h : ¬(u = true ∧ 0 < st.quota)) :
    fetch_step gd u fy s sid st e = st := by
  by_cases h1 : e.state_id = sid
  · by_cases h2 : fy ≤ e.year_end
    · simp [fetch_step, h1, h2, h]
    · simp [fetch_step, h1, h2]
  · simp [fetch_step, h1]

/-- The one-step update which the loop of `findLatest` makes on a matching,
parseable name. -/
lemma findLatestAux_spec :
    ∀ (names : List String) (d : Int) (nm : Option String),
      d ≤ (findLatestAux names d nm).1 ∧
      (∀ n ∈ names, ∀ ds fd, DSL_search n = some ds → strptimeYMD ds = some fd →
          fd ≤ (findLatestAux names d nm).1) ∧
      (findLatestAux names d nm = (d, nm) ∨
        (d < (findLatestAux names d nm).1 ∧
          ∃ n ∈ names, ∃ ds, DSL_search n = some ds ∧
            strptimeYMD ds = some (findLatestAux names d nm).1 ∧
            (findLatestAux names d nm).2 = some n)) := by
  intro names
  induction names with
  | nil =>
    intro d nm
    exact ⟨le_refl d, by simp, Or.inl rfl⟩
  | cons name rest ih =>
    intro d nm
    cases hs : DSL_search name with
    | none =>
      have hstep : findLatestAux (name :: rest) d nm = findLatestAux rest d nm := by
        simp [findLatestAux, hs]
      obtain ⟨ihd, ihb, ihc⟩ := ih d nm
      rw [hstep]
      refine ⟨ihd, ?_, ?_⟩
      · intro n hn ds fd hds hfd
        rcases List.mem_cons.mp hn with rfl | hn'
        · rw [hs] at hds; exact absurd hds (by simp)
        · exact ihb n hn' ds fd hds hfd
      · rcases ihc with h1 | ⟨hlt, n, hn, ds, hds, hfd, h2⟩
        · exact Or.inl h1
        · exact Or.inr ⟨hlt, n, List.mem_cons_of_mem _ hn, ds, hds, hfd, h2⟩
    | some ds0 =>
      cases hp : strptimeYMD ds0 with
      | none =>
        have hstep : findLatestAux (name :: rest) d nm = findLatestAux rest d nm := by
          simp [findLatestAux, hs, hp]
        obtain ⟨ihd, ihb, ihc⟩ := ih d nm
        rw [hstep]
        refine ⟨ihd, ?_, ?_⟩
        · intro n hn ds fd hds hfd
          rcases List.mem_cons.mp hn with rfl | hn'
          · rw [hs] at hds
            have he : ds0 = ds := by injection hds
            rw [← he, hp] at hfd
            exact absurd hfd (by simp)
          · exact ihb n hn' ds fd hds hfd
        · rcases ihc with h1 | ⟨hlt, n, hn, ds, hds, hfd, h2⟩
          · exact Or.inl h1
          · exact Or.inr ⟨hlt, n, List.mem_cons_of_mem _ hn, ds, hds, hfd, h2⟩
      | some fd0 =>
        by_cases hcmp : d < fd0
        · have hstep : findLatestAux (name :: rest) d nm
              = findLatestAux rest fd0 (some name) := by
            simp [findLatestAux, hs, hp, hcmp]
          obtain ⟨ihd, ihb, ihc⟩ := ih fd0 (some name)
          rw [hstep]
          refine ⟨le_of_lt (lt_of_lt_of_le hcmp ihd), ?_, ?_⟩
          · intro n hn ds fd hds hfd
            rcases List.mem_cons.mp hn with rfl | hn'
            · rw [hs] at hds
              have he : ds0 = ds := by injection hds
              rw [← he, hp] at hfd
              have he2 : fd0 = fd := by injection hfd
              rw [← he2]
              exact ihd
            · exact ihb n hn' ds fd hds hfd
          · rcases ihc with h1 | ⟨hlt, n, hn, ds, hds, hfd, h2⟩
            · refine Or.inr ⟨by rw [h1]; exact hcmp, name, List.mem_cons_self _ _,
                ds0, hs, by rw [h1]; exact hp, by rw [h1]⟩
            · exact Or.inr ⟨lt_trans hcmp hlt, n, List.mem_cons_of_mem _ hn,
                ds, hds, hfd, h2⟩
        · have hstep : findLatestAux (name :: rest) d nm = findLatestAux rest d nm := by
            simp [findLatestAux, hs, hp, hcmp]
          obtain ⟨ihd, ihb, ihc⟩ := ih d nm
          rw [hstep]
          refine ⟨ihd, ?_, ?_⟩
          · intro n hn ds fd hds hfd
            rcases List.mem_cons.mp hn with rfl | hn'
            · rw [hs] at hds
              have he : ds0 = ds := by injection hds
              rw [← he, hp] at hfd
              have he2 : fd0 = fd := by injection hfd
              rw [← he2]
              exact le_trans (not_lt.mp hcmp) ihd
            · exact ihb n hn' ds fd hds hfd
          · rcases ihc with h1 | ⟨hlt, n, hn, ds, hds, hfd, h2⟩
            · exact Or.inl h1
            · exact Or.inr ⟨hlt, n, List.mem_cons_of_mem _ hn, ds, hds, hfd, h2⟩

/-! ## Claims -/

/-- C1: Scenario C is supposed to upload the fetched payload under the key
derived from the session id, `XX-9001.json`; the scheduler (source line
177) instead derives the key from the region's numeric id and uploads to
`XX-5.json`, making exactly one fetch. -/
theorem C1_scenarioC_upload_key :
    scenarioC.fetchCount = 1 ∧ scenarioC.fob.keys = ["XX-5.json"] ∧
      Dataset_name "XX" entryC.session_id = "XX-9001.json" ∧
      Dataset_name "XX" entryC.session_id ∉ scenarioC.fob.keys := by
  decide

/-- C2: with a cached manifest dated 2024-01-01 and the remote API enabled,
the resolver fires the remote manifest fetch on 2024-01-11 (age about 10.5
days) and not on 2024-01-03; the 7-day threshold is hardcoded, so a
configured frequency of 14 days would not stop the 2024-01-11 fetch. -/
theorem C2_seven_day_threshold_hardcoded :
    (resolve_text fobCached true (some pkgOK) nowStale).apiAttempts = 1 ∧
      (resolve_text fobCached true (some pkgOK) nowFresh).apiAttempts = 0 := by
  decide

/-- C3 counterexample: a cached manifest that parses but carries no status
field at all is not rejected: the resolver succeeds, extracting no entry
collection. -/
theorem C3_missing_status_accepted :
    pkgNoStatus.status = none ∧
      (recent_enough fobNoStatus false none nowFresh).toOption.map RSout.datasetlist
        = some none := by
  decide

/-- C3 amended: validation rejects a manifest whose status field is present
and differs from "OK" (naming the offending file) and one with status "OK"
but no datasetlist collection; a manifest lacking a status field entirely
is accepted with no entry collection extracted. -/
theorem C3_validation_rules (nm : Option String) (pkg : ListPkg) (st : String) :
    (pkg.status = some st → st ≠ "OK" →
        validate nm pkg = Except.error (CmdError.statusNotOK nm)) ∧
    (pkg.status = some "OK" → pkg.datasetlist = none →
        validate nm pkg = Except.error CmdError.datasetlistMissing) ∧
    (pkg.status = none → validate nm pkg = Except.ok none) := by
  refine ⟨fun h1 h2 => ?_, fun h1 h2 => ?_, fun h1 => ?_⟩
  · simp [validate, h1, bne_iff_ne, h2]
  · simp [validate, h1, h2]
  · simp [validate, h1]

/-- C4 counterexample: on a successful resolution of the cached manifest
the parsed entry collection is `[entryC]`, yet the value the function
returns to its caller is `None`. -/
theorem C4_returns_none :
    (recent_enough fobCached false none nowFresh).toOption = some outCached ∧
      outCached.datasetlist = some [entryC] ∧ outCached.ret = none := by
  decide

/-- C4 amended: whenever `recent_enough` does not fail it hands `None` back
to its caller; the parsed entry collection is instead stored in the
command's `datasetlist` attribute (when the manifest's status is "OK"). -/
theorem C4_resolver_stores_not_returns (fob : FOB) (u : Bool) (a : Option ListPkg)
    (now : DateTime) (out : RSout) (h : recent_enough fob u a now = Except.ok out) :
    out.ret = none ∧
      out.datasetlist
        = (match out.list_data with
           | some pkg => if pkg.status = some "OK" then pkg.datasetlist else none
           | none => none) :=
  recent_enough_of_ok (resolve_text fob u a now) out h

/-- C4 witness: the amended statement at the cached-manifest input. -/
theorem C4_witness :
    outCached.ret = none ∧
      outCached.datasetlist
        = (match outCached.list_data with
           | some pkg => if pkg.status = some "OK" then pkg.datasetlist else none
           | none => none) :=
  C4_resolver_stores_not_returns fobCached false none nowFresh outCached rfl

/-- C5: when the remote manifest fetch yields nothing, the resolver falls
back to downloading the latest cached manifest (when one exists); when no
manifest text is held at all it fails with the fatal availability error,
in particular on an empty blob store with the remote API disabled. -/
theorem C5_fallback_and_fatal :
    (∀ (fob : FOB) (u : Bool) (now : DateTime),
        (resolve_text fob u none now).list_data
          = (findLatest fob.DatasetList_items).2.bind fob.downloadPkg) ∧
    (∀ (fob : FOB) (u : Bool) (a : Option ListPkg) (now : DateTime),
        (resolve_text fob u a now).list_data = none →
          recent_enough fob u a now = Except.error CmdError.apiFailureOrNotFound) ∧
    recent_enough emptyFOB false none nowFresh
      = Except.error CmdError.apiFailureOrNotFound := by
  refine ⟨fun fob u now => ?_, fun fob u a now h => ?_, rfl⟩
  · unfold resolve_text
    rw [resolve_api_phase_none]
    cases h : (findLatest fob.DatasetList_items).2 <;>
      simp [resolve_download, h]
  · unfold recent_enough recent_enough_of
    rw [h]

/-- C6: a manifest entry is considered by the fetch scheduler and by the
ledger/report phase exactly when its external id matches the region and
its final year meets the year filter: non-matching entries change nothing
in the scheduler, matching ones (with remote enabled and quota left) fetch
and upload, and the report/ledger output is exactly one line and one row
per matching entry. -/
theorem C6_selection_iff :
    (∀ (gd : Int → String → String) (u : Bool) (fy : Int) (s : String) (sid : Int)
        (st : FetchSt) (e : MEntry),
        ¬(e.state_id = sid ∧ fy ≤ e.year_end) → fetch_step gd u fy s sid st e = st) ∧
    (∀ (gd : Int → String → String) (fy : Int) (s : String) (sid : Int)
        (st : FetchSt) (e : MEntry),
        e.state_id = sid → fy ≤ e.year_end → 0 < st.quota →
          fetch_step gd true fy s sid st e
            = ⟨st.fob.upload_text (Blob.text (gd e.session_id e.access_key))
                (Dataset_name s sid), st.quota - 1, st.fetchCount + 1⟩) ∧
    (∀ (fl : List String) (fm : String) (fy : Int) (s : String) (sid : Int)
        (entries : List MEntry),
        datasets_found_state fl fm fy s sid entries
          = ((entries.filter (matchesEntry sid fy)).map (reportOf fl s),
             (entries.filter (matchesEntry sid fy)).map
               (fun e => mkHash fm (Dataset_name s e.session_id) e))) := by
  refine ⟨fetch_step_skip, ?_, ?_⟩
  · intro gd fy s sid st e h1 h2 h3
    simp [fetch_step, h1, h2, h3]
  · intro fl fm fy s sid entries
    exact datasets_found_state_eq fl fm fy s sid entries

/-- C6 witness: the scheduler skip at a concrete non-matching entry (year
2019 below a 2020 year filter). -/
theorem C6_witness :
    fetch_step (fun _ _ => "payload") true 2020 "XX" 5 ⟨emptyFOB, 10, 0⟩ entryC
      = ⟨emptyFOB, 10, 0⟩ :=
  C6_selection_iff.1 (fun _ _ => "payload") true 2020 "XX" 5 ⟨emptyFOB, 10, 0⟩ entryC
    (by decide)

/-- C7: the ledger phase appends, for every region in the report list,
exactly one fresh `Hash` row per manifest entry matching that region and
the year filter, capturing the entry's hash, size, date, storage method,
item name and description, and does so whatever the blob store holds (the
right-hand side does not depend on the store contents). -/
theorem C7_ledger_append (fob : FOB) (fm : String) (fy : Int)
    (entries : List MEntry) (states : List (String × Int)) :
    (datasets_found fob fm fy entries states).2
      = states.flatMap (fun p => (entries.filter (matchesEntry p.2 fy)).map
          (fun e => mkHash fm (Dataset_name p.1 e.session_id) e)) := by
  induction states with
  | nil => rfl
  | cons p rest ih =>
    obtain ⟨state, sid⟩ := p
    simp only [datasets_found, datasets_found_state_eq, ih, List.flatMap_cons]

/-- C8: a per-entry dataset fetch happens only while remote fetching is
enabled and quota remains (otherwise the state is untouched - a silent
skip), and over the whole per-region loop of a run the number of fetch
attempts made never exceeds the quota available at run start. -/
theorem C8_quota_respected :
    (∀ (gd : Int → String → String) (u : Bool) (fy : Int) (s : String) (sid : Int)
        (st : FetchSt) (e : MEntry),
        ¬(u = true ∧ 0 < st.quota) → fetch_step gd u fy s sid st e = st) ∧
    (∀ (gd : Int → String → String) (u : Bool) (fy : Int) (entries : List MEntry)
        (sfilter : Option String) (locs : List (String × Int)) (st : FetchSt),
        st.fetchCount = 0 →
          (run_fetch_all gd u fy entries sfilter locs st).fetchCount ≤ st.quota) := by
  refine ⟨fetch_step_no_api, ?_⟩
  intro gd u fy entries sfilter locs st h
  have hsum := run_fetch_all_sum gd u fy entries sfilter locs st
  omega

/-- C8 witness: with quota spent the scheduler skips a matching entry, and
a concrete two-region run with quota 1 makes at most one fetch. -/
theorem C8_witness :
    fetch_step (fun _ _ => "payload") true 2018 "XX" 5 ⟨emptyFOB, 0, 0⟩ entryC
      = ⟨emptyFOB, 0, 0⟩ ∧
    (run_fetch_all (fun _ _ => "payload") true 2018 [entryC] none
        [("XX", 5), ("AZ", 5)] ⟨emptyFOB, 1, 0⟩).fetchCount ≤ 1 :=
  ⟨C8_quota_respected.1 (fun _ _ => "payload") true 2018 "XX" 5 ⟨emptyFOB, 0, 0⟩ entryC
      (by decide),
   C8_quota_respected.2 (fun _ _ => "payload") true 2018 [entryC] none
      [("XX", 5), ("AZ", 5)] ⟨emptyFOB, 1, 0⟩ rfl⟩

/-- C9 counterexample: `DatasetList-1900-01-01.json` matches the naming
pattern and carries the latest (only) embedded date, yet the resolver
selects no key for it: its date does not exceed the 1911 sentinel the loop
starts from. -/
theorem C9_match_not_selected :
    DSL_search "DatasetList-1900-01-01.json" = some "1900-01-01" ∧
      strptimeYMD "1900-01-01" = some (dtMinutes 1900 1 1 0 0) ∧
      findLatest ["DatasetList-1900-01-01.json"] = (sentinelMinutes, none) := by
  decide

/-- C9 amended: among the listed keys the resolver selects a key matching
the naming pattern whose embedded date is maximal, provided that date
exceeds the sentinel 1911-06-16 16:20; every parsed date is bounded by the
selected date; when nothing is selected (in particular when no key matches
the pattern) the latest date is the sentinel. -/
theorem C9_latest_selection (names : List String) :
    ((∀ n ∈ names, DSL_search n = none) → findLatest names = (sentinelMinutes, none)) ∧
    (∀ n ∈ names, ∀ ds fd, DSL_search n = some ds → strptimeYMD ds = some fd →
        fd ≤ (findLatest names).1) ∧
    (∀ nm, (findLatest names).2 = some nm →
        nm ∈ names ∧ sentinelMinutes < (findLatest names).1 ∧
        ∃ ds, DSL_search nm = some ds ∧ strptimeYMD ds = some (findLatest names).1) ∧
    ((findLatest names).2 = none → (findLatest names).1 = sentinelMinutes) := by
  unfold findLatest
  obtain ⟨hd, hb, hc⟩ := findLatestAux_spec names sentinelMinutes none
  refine ⟨?_, hb, ?_, ?_⟩
  · intro hall
    rcases hc with h1 | ⟨hlt, n, hn, ds, hds, hfd, h2⟩
    · exact h1
    · rw [hall n hn] at hds
      exact absurd hds (by simp)
  · intro nm hnm
    rcases hc with h1 | ⟨hlt, n, hn, ds, hds, hfd, h2⟩
    · rw [h1] at hnm
      exact absurd hnm (by simp)
    · rw [h2] at hnm
      have he : n = nm := by injection hnm
      rw [← he]
      exact ⟨hn, hlt, ds, hds, hfd⟩
  · intro hnone
    rcases hc with h1 | ⟨hlt, n, hn, ds, hds, hfd, h2⟩
    · rw [h1]
    · rw [h2] at hnone
      exact absurd hnone (by simp)

/-- C10: the round trip is broken at the concrete Scenario C data: the run
fetches the entry and uploads it (to `AZ-5.json`, from the region id), but
the report phase of the same run looks for `AZ-9001.json` (from the
session id) and reports the entry it just fetched as not found. -/
theorem C10_fetched_but_reported_missing :
    scenarioAZ.fetchCount = 1 ∧ scenarioAZ.fob.keys = ["AZ-5.json"] ∧
      (datasets_found scenarioAZ.fob "FOB" 2018 [entryC] [("AZ", 5)]).1
        = [ReportLine.notFound "AZ-9001.json"] := by
  decide

end GetApiData
